import Mathlib

/-!
Verification of the Assimulo Radau5 solvers (src/solvers/radau5.py) and the
ODE base class (src/ode.py) against their natural-language specification.

Floating-point arithmetic is modelled by real arithmetic (the standard
shallow embedding); Python exceptions are modelled by `Except`/`Option`
results.  Vector operations that act componentwise are modelled on a single
component where the claim is componentwise.
-/

namespace Assimulo

noncomputable section

/-- Radau collocation node `C[0,0] = (4 - sqrt 6)/10`, as set by
`_Radau5ODE._load_parameters`. -/
def c1 : ℝ := (4 - Real.sqrt 6) / 10

/-- Radau collocation node `C[1,0] = (4 + sqrt 6)/10`, as set by
`_Radau5ODE._load_parameters`. -/
def c2 : ℝ := (4 + Real.sqrt 6) / 10

/-- Radau collocation node `C[2,0] = 1`, as set by
`_Radau5ODE._load_parameters`. -/
def c3 : ℝ := 1

/-- Embedded error vector of `_Radau5ODE._load_parameters`: the code first
fills `E = (-13 - 7*sqrt 6, -13 + 7*sqrt 6, -1)` and then rescales the whole
vector by `1/3`. -/
def Evec : Fin 3 → ℝ :=
  fun i => 1 / 3 * (![-13 - 7 * Real.sqrt 6, -13 + 7 * Real.sqrt 6, -1] i)

/-- One component of `_Radau5ODE._collocation_pol` (the function acts
componentwise on the three slices of length `leny`).  The six in-place slice
assignments are modelled by sequential `let` bindings in source order; the
final contents of `col_poly` are returned as `(P0, P1, P2)` where `P0` is
slice `[:leny]`, `P1` is `[leny:2*leny]` and `P2` is `[2*leny:3*leny]`. -/
def collocation_pol (z1 z2 z3 : ℝ) : ℝ × ℝ × ℝ :=
  let p2 := z1 / c1
  let p1 := (z1 - z2) / (c1 - c2)
  let p0 := (z2 - z3) / (c2 - 1)
  let p2 := (p1 - p2) / c2
  let p1 := (p1 - p0) / (c1 - 1)
  let p2 := p1 - p2
  (p0, p1, p2)

/-- One component of `_Radau5ODE.interpolate`: the state after an accepted
step holds the new time `_newt`, the old step size `_oldh`, the current
state `_yc` and the collocation coefficients `_col_poly = (Z0, Z1, Z2)`
(slices `[:leny]`, `[leny:2*leny]`, `[2*leny:3*leny]`). -/
def interpolate (newt oldh yc z0 z1 z2 : ℝ) (t : ℝ) : ℝ :=
  let s := (t - newt) / oldh
  yc + s * (z0 + (s - c2 + 1) * (z1 + (s - c1 + 1) * z2))

/-- Jacobian/LU reuse flags `(need_jac, need_LU)` set at the end of an
accepted step by `_Radau5ODE._step` (lines 622-634): first the three-way
test on `oldoldh == h` and `theta <= thet`, then the override when the
configured `thet` is negative. -/
def stepFlags (oldoldh h theta thet : ℝ) : Bool × Bool :=
  let fl :=
    if oldoldh = h ∧ theta ≤ thet then (false, false)
    else if theta ≤ thet then (false, true)
    else (true, true)
  if thet < 0 then (true, true) else fl

/-- Jacobian/LU reuse flags `(need_jac, need_LU)` set at the end of an
accepted step by `_Radau5DAE._step` (lines 1487-1499): identical to the
explicit variant except that both reuse conditions read
`theta <= thet or curiter == 1`. -/
def stepFlagsDAE (oldoldh h theta thet : ℝ) (curiter : ℕ) : Bool × Bool :=
  let fl :=
    if oldoldh = h ∧ (theta ≤ thet ∨ curiter = 1) then (false, false)
    else if theta ≤ thet ∨ curiter = 1 then (false, true)
    else (true, true)
  if thet < 0 then (true, true) else fl

/-- Modelled from the claim wording (C6): the reuse rule as the claim states
it for both integrators, with no `curiter` disjunct. -/
def stepFlagsClaim (oldoldh h theta thet : ℝ) : Bool × Bool :=
  let fl :=
    if oldoldh = h ∧ theta ≤ thet then (false, false)
    else if theta ≤ thet then (false, true)
    else (true, true)
  if thet < 0 then (true, true) else fl

/-- Outcome of one pass through the body of the inner Newton loop of
`_Radau5ODE.newton` (lines 721-767): `proceed` means the loop goes on to the
next iteration, `convergedExit` is the `fac_con*newnrm <= fnewt` break with
`itfail = False`, `slowAbort` is the `dyth >= 1` break (too slow
convergence, step size reduced), and `nonconvAbort` is the
`theta >= 0.99` break (the `else: #Not convergence, abort` branch). -/
inductive NewtonOutcome where
  | proceed
  | convergedExit
  | slowAbort
  | nonconvAbort
deriving DecidableEq, Repr

/-- Mutable state read and written by one inner Newton iteration of
`_Radau5ODE.newton`: the contraction estimate `_theta`, the previous ratio
`thqold`, the stored previous norm `oldnrm`, the factor `_fac_con` and the
step size `h`. -/
structure NewtonState where
  theta : ℝ
  thqold : ℝ
  oldnrm : ℝ
  fac_con : ℝ
  h : ℝ

/-- One iteration of the inner Newton loop of `_Radau5ODE.newton`
(lines 721-767), with the freshly computed increment norm `newnrm` supplied
as an oracle (its value comes from the linear algebra, which the control
flow does not inspect beyond this scalar).  `i` is the Python loop index,
`newt` the iteration cap `self.newt`, `fnewt` the Newton tolerance and
`eps` the machine epsilon.  Returns the updated state and the outcome. -/
def newtonIter (newt : ℕ) (fnewt eps : ℝ) (i : ℕ) (newnrm : ℝ)
    (s : NewtonState) : NewtonState × NewtonOutcome :=
  let finish := fun (st : NewtonState) =>
    let st := { st with oldnrm := max newnrm eps }
    if st.fac_con * newnrm ≤ fnewt then (st, NewtonOutcome.convergedExit)
    else (st, NewtonOutcome.proceed)
  if 0 < i then
    let thq := newnrm / s.oldnrm
    let theta := if i = 1 then thq else Real.sqrt (thq * s.thqold)
    let s1 := { s with theta := theta, thqold := thq }
    if theta < 0.99 then
      let fac_con := theta / (1 - theta)
      let s2 := { s1 with fac_con := fac_con }
      let dyth := fac_con * newnrm * theta ^ ((newt : ℝ) - (i + 1) - 1) / fnewt
      if 1 ≤ dyth then
        let qnewt := max 1e-4 (min 20 dyth)
        ({ s2 with h := 0.8 * qnewt ^ (-(1 : ℝ) / (4 + (newt : ℝ) - (i + 1) - 1)) * s2.h },
          NewtonOutcome.slowAbort)
      else finish s2
    else (s1, NewtonOutcome.nonconvAbort)
  else finish s

/-- Inner Newton loop of `newton` (`for i in range(self.newt)` with a
`for`-`else` clause): starting at index `i` with `fuel` iterations left,
current state `s` and current iteration count `cur`, returns the final
state, the final `_curiter` and the `_itfail` flag (`true` when the pass
failed, including exhaustion of the range, which triggers the `else`
branch). -/
def runInner (cap : ℕ) (fnewt eps : ℝ) (norms : ℕ → ℝ) :
    ℕ → ℕ → NewtonState → ℕ → NewtonState × ℕ × Bool
  | 0, _, s, cur => (s, cur, true)
  | fuel + 1, i, s, cur =>
      let r := newtonIter cap fnewt eps i (norms i) s
      match r.2 with
      | NewtonOutcome.proceed => runInner cap fnewt eps norms fuel (i + 1) r.1 (cur + 1)
      | NewtonOutcome.convergedExit => (r.1, cur + 1, false)
      | NewtonOutcome.slowAbort => (r.1, cur + 1, true)
      | NewtonOutcome.nonconvAbort => (r.1, cur + 1, true)

/-- Outer restart loop of `newton` (`for k in range(20)`): each pass resets
`_curiter = 0`, `_fac_con = max(_fac_con, _eps)**0.8` and
`_theta = abs(thet)`, runs the inner loop from `i = 0`, and on failure
halves the step size when `_theta >= 0.99` and retries; when all passes
fail the `Explicit_ODE_Exception` is raised (`Except.error`).  The linear
algebra of each pass is abstracted into the per-pass norm oracle
`norms`. -/
def newtonRun (cap : ℕ) (fnewt eps thet : ℝ) (norms : ℕ → ℕ → ℝ) :
    ℕ → NewtonState → Except Unit (NewtonState × ℕ)
  | 0, _ => Except.error ()
  | p + 1, s =>
      let s0 := { s with fac_con := (max s.fac_con eps) ^ (0.8 : ℝ),
                         theta := |thet| }
      let r := runInner cap fnewt eps (norms p) cap 0 s0 0
      if r.2.2 then
        let s1 := if 0.99 ≤ r.1.theta then { r.1 with h := r.1.h / 2 } else r.1
        newtonRun cap fnewt eps thet norms p s1
      else Except.ok (r.1, r.2.1)

/-- Solver state read by `adjust_stepsize`: the controller constants
`safe`, `fac1`, `fac2`, `quot1`, `quot2`, the Newton cap `newt`, the last
iteration count `_curiter`, the current step size `h`, the ceiling `maxh`,
the machine epsilon `_eps` and the first-step flag `_first`. -/
structure StepParams where
  safe : ℝ
  newt : ℕ
  curiter : ℕ
  fac1 : ℝ
  fac2 : ℝ
  quot1 : ℝ
  quot2 : ℝ
  h : ℝ
  maxh : ℝ
  eps : ℝ
  first : Bool

/-- Non-predictive branch of `_Radau5ODE.adjust_stepsize` (lines 792-824,
`predict=False`): proposal, hysteresis hold, first-step reduction, fatal
check against `_eps` (modelled as `Except.error`), then the `maxh`
ceiling, in the source's order.  `err ** 0.25` is real exponentiation. -/
def adjust_stepsize (p : StepParams) (err : ℝ) : Except Unit ℝ :=
  let fac := min p.safe (p.safe * (2 * p.newt + 1) / (2 * p.newt + p.curiter))
  let quot := max (1 / p.fac2) (min (1 / p.fac1) (err ^ (0.25 : ℝ) / fac))
  let hnormal := p.h / quot
  let h1 := hnormal
  let qt := h1 / p.h
  let h2 := if p.quot1 ≤ qt ∧ qt ≤ p.quot2 then p.h else h1
  let h3 := if p.first ∧ 1 ≤ err then p.h / 10 else h2
  if h3 < p.eps then Except.error ()
  else if p.maxh < h3 then Except.ok p.maxh
  else Except.ok h3

/-- Non-predictive branch of `_Radau5DAE.adjust_stepsize` (lines 1679-1714,
`predict=False`): same proposal and hysteresis hold, but the `maxh` ceiling
is applied BEFORE the first-step reduction `h = self.h*0.1`, and the fatal
`_eps` check comes last.  The `_hhfac` bookkeeping attribute is not part of
the returned value and is not modelled. -/
def adjust_stepsize_dae (p : StepParams) (err : ℝ) : Except Unit ℝ :=
  let fac := min p.safe (p.safe * (2 * p.newt + 1) / (2 * p.newt + p.curiter))
  let quot := max (1 / p.fac2) (min (1 / p.fac1) (err ^ (0.25 : ℝ) / fac))
  let hnormal := p.h / quot
  let h1 := hnormal
  let qt := h1 / p.h
  let h2 := if p.quot1 ≤ qt ∧ qt ≤ p.quot2 then p.h else h1
  let h2b := if p.maxh < h2 then p.maxh else h2
  let h3 := if p.first ∧ 1 ≤ err then p.h * 0.1 else h2b
  if h3 < p.eps then Except.error ()
  else Except.ok h3

/-- Modelled from the amended claim (C2), explicit variant: proposal
`h/quot` with `fac = min(safe, safe*(2*newt+1)/(2*newt+curiter))` and
`quot = max(1/fac2, min(1/fac1, err^(1/4)/fac))`; hysteresis hold when the
ratio lies in `[quot1, quot2]`; on the first step with `err >= 1` the
proposal becomes `h/10`; a proposal below machine epsilon is the fatal
step-size-too-small error; the returned value is the proposal capped at
`maxh`. -/
def adjust_stepsize_claim (p : StepParams) (err : ℝ) : Except Unit ℝ :=
  let fac := min p.safe (p.safe * (2 * p.newt + 1) / (2 * p.newt + p.curiter))
  let quot := max (1 / p.fac2) (min (1 / p.fac1) (err ^ (0.25 : ℝ) / fac))
  let hq := if p.quot1 ≤ p.h / quot / p.h ∧ p.h / quot / p.h ≤ p.quot2
            then p.h else p.h / quot
  let hfin := if p.first ∧ 1 ≤ err then p.h / 10 else hq
  if hfin < p.eps then Except.error ()
  else Except.ok (min hfin p.maxh)

/-- Modelled from the amended claim (C2), DAE variant: same proposal and
hysteresis, but the `maxh` cap is applied before the first-step reduction,
so on the first step with `err >= 1` the returned value is exactly `h/10`
(even above `maxh`); the fatal epsilon check is applied to the final
value. -/
def adjust_stepsize_dae_claim (p : StepParams) (err : ℝ) : Except Unit ℝ :=
  let fac := min p.safe (p.safe * (2 * p.newt + 1) / (2 * p.newt + p.curiter))
  let quot := max (1 / p.fac2) (min (1 / p.fac1) (err ^ (0.25 : ℝ) / fac))
  let hq := if p.quot1 ≤ p.h / quot / p.h ∧ p.h / quot / p.h ≤ p.quot2
            then p.h else p.h / quot
  let hfin := if p.first ∧ 1 ≤ err then p.h / 10 else min hq p.maxh
  if hfin < p.eps then Except.error ()
  else Except.ok hfin

/-- Euclidean norm of a vector, `N.linalg.norm` on a 1-d array. -/
def enorm (n : ℕ) (v : Fin n → ℝ) : ℝ := Real.sqrt (∑ i, v i ^ 2)

/-- Embedding of `_Radau5ODE.estimate_error` (lines 826-843).  The back
substitution through the real LU factors `P1, L1, U1` is abstracted as the
linear solve `solve` (the control flow never inspects its values beyond the
scalar norm), and the bootstrapped right-hand side evaluation
`self.f(err_new, self._tc, self._yc + err_v)` is abstracted as
`fboot err_v`.  `E0 E1 E2` are the embedded error weights, `Z1 Z2 Z3` the
three slices of `self._Z`, `f0` the stored derivative `self._f0` and `scal`
the scaling `self._scaling`. -/
def estimate_error (n : ℕ) (solve fboot : (Fin n → ℝ) → Fin n → ℝ)
    (E0 E1 E2 h : ℝ) (Z1 Z2 Z3 f0 scal : Fin n → ℝ)
    (rejected first : Bool) : ℝ :=
  let temp := fun i => 1 / h * (E0 * Z1 i + E1 * Z2 i + E2 * Z3 i)
  let err_v := solve (fun i => f0 i + temp i)
  let err := max (enorm n (fun i => err_v i / scal i) / Real.sqrt n) 1e-10
  if (rejected ∨ first) ∧ 1 ≤ err then
    let err_new := fboot err_v
    let err_v2 := solve (fun i => err_new i + temp i)
    max (enorm n (fun i => err_v2 i / scal i) / Real.sqrt n) 1e-10
  else err

/-- Modelled from the claim wording (C5): the estimate is
`max(norm(err_vec/sc)/sqrt(n), 1e-10)` with
`err_vec = solve (f(t,y) + (1/h)*sum E_i*Z_i)`, and exactly when the
previous step was rejected or this is the first step and that first-pass
value is `>= 1`, it is recomputed once with the bootstrapped right-hand
side `f(t, y + err_vec)` in place of `f(t,y)`, again floored at
`1e-10`. -/
def estimate_error_claim (n : ℕ) (solve fboot : (Fin n → ℝ) → Fin n → ℝ)
    (E0 E1 E2 h : ℝ) (Z1 Z2 Z3 f0 scal : Fin n → ℝ)
    (rejected first : Bool) : ℝ :=
  if (rejected ∨ first) ∧
      1 ≤ max (enorm n (fun i =>
            solve (fun j => f0 j +
              1 / h * (E0 * Z1 j + E1 * Z2 j + E2 * Z3 j)) i / scal i) /
          Real.sqrt n) 1e-10 then
    max (enorm n (fun i =>
        solve (fun j =>
          fboot (solve (fun l => f0 l +
            1 / h * (E0 * Z1 l + E1 * Z2 l + E2 * Z3 l))) j +
          1 / h * (E0 * Z1 j + E1 * Z2 j + E2 * Z3 j)) i / scal i) /
      Real.sqrt n) 1e-10
  else
    max (enorm n (fun i =>
        solve (fun j => f0 j +
          1 / h * (E0 * Z1 j + E1 * Z2 j + E2 * Z3 j)) i / scal i) /
      Real.sqrt n) 1e-10

/-- Prelude of `Radau5DAE.integrate` (lines 1119-1122): when the `usejac`
option is enabled, the option is turned off and a message is logged at the
`NORMAL` level; no exception is raised (the result is always `Except.ok`),
and only then is the underlying FORTRAN solver invoked with the resulting
`usejac` value. -/
def radau5dae_integrate_prelude (usejac : Bool) (log : List String) :
    Except String (Bool × List String) :=
  if usejac then
    Except.ok (false, log ++ ["Jacobians are not currently supported, disabling."])
  else Except.ok (usejac, log)

/-- Python value passed to the `maxsteps` property setter: either an
integer or some value of any other type (the setter only asks
`isinstance(maxsteps, int)`). -/
inductive PyVal where
  | int (n : ℤ)
  | nonInt
deriving DecidableEq

/-- Embedding of `ODE._set_max_steps` (src/ode.py lines 61-81): the stored
value `cur` together with the incoming value produce the new stored value
and an optional raised `ODE_Exception` message; on an exception the stored
value is unchanged. -/
def set_max_steps (cur : ℤ) (v : PyVal) : ℤ × Option String :=
  match v with
  | PyVal.int n =>
      if n < 1 then
        (cur, some "The maximum number of steps must be a positive integer.")
      else (n, none)
  | PyVal.nonInt =>
      (cur, some "The maximum number of steps must be an integer.")

/-- Dispatch on `k` in `Radau5DAE.interpolate` (lines 1063-1071): the
interpolated vector halves (computed through `contr5`) are abstracted as
`y` and `yd`; for `k = 0` the state half is returned, for `k = 1` the
derivative half, and any other `k` falls through both branches so Python
returns `None`. -/
def radau5dae_interpolate {α : Type} (y yd : α) (k : ℤ) : Option α :=
  if k = 0 then some y else if k = 1 then some yd else none

/-- Dispatch on `k` in the pure-Python `_Radau5DAE.interpolate`
(lines 1636-1654): the computed `yout` and `ydout` are abstracted as the
two inputs; `k = 0` returns the state, `k = 1` the derivative, and any
other `k` raises `Implicit_ODE_Exception`. -/
def radau5dae_interpolate_py {α : Type} (yout ydout : α) (k : ℤ) :
    Except String α :=
  if k = 0 then Except.ok yout
  else if k = 1 then Except.ok ydout
  else Except.error "Unknown value of k. Should be either 0 or 1"

end

/-- C3: the coefficients returned by `_collocation_pol` equal the in-order
divided-difference updates `P2 = Z1/c1`; `P1 = (Z1 - Z2)/(c1 - c2)`;
`P0 = (Z2 - Z3)/(c2 - 1)`; `P2 = (P1 - P2)/c2`; `P1 = (P1 - P0)/(c1 - 1)`;
`P2 = P1 - P2`, written out as closed forms in `Z1, Z2, Z3`. -/
theorem collocation_pol_eq (z1 z2 z3 : ℝ) :
    collocation_pol z1 z2 z3 =
      ((z2 - z3) / (c2 - 1),
       ((z1 - z2) / (c1 - c2) - (z2 - z3) / (c2 - 1)) / (c1 - 1),
       ((z1 - z2) / (c1 - c2) - (z2 - z3) / (c2 - 1)) / (c1 - 1) -
         ((z1 - z2) / (c1 - c2) - z1 / c1) / c2) := by
  simp only [collocation_pol]

/-- C4: evaluating the continuous output at the right endpoint `t = _newt`
of an accepted step returns the stored current state `_yc` exactly: the
evaluation parameter `s = (t - _newt)/_oldh` is zero, so the polynomial
contribution vanishes. -/
theorem interpolate_at_newt (newt oldh yc z0 z1 z2 : ℝ) :
    interpolate newt oldh yc z0 z1 z2 newt = yc := by
  simp [interpolate]

/-- C7: the nodes and the embedded error vector produced by
`_load_parameters` match the closed forms
`c = ((4 - sqrt 6)/10, (4 + sqrt 6)/10, 1)` and
`E = (1/3) * (-13 - 7*sqrt 6, -13 + 7*sqrt 6, -1)`. -/
theorem load_parameters_closed_forms :
    c1 = (4 - Real.sqrt 6) / 10 ∧ c2 = (4 + Real.sqrt 6) / 10 ∧ c3 = 1 ∧
    Evec 0 = (-13 - 7 * Real.sqrt 6) / 3 ∧
    Evec 1 = (-13 + 7 * Real.sqrt 6) / 3 ∧
    Evec 2 = -(1 / 3) := by
  refine ⟨rfl, rfl, rfl, ?_, ?_, ?_⟩ <;> simp [Evec] <;> ring

/-- Helper: a successful inner-loop run performs at least one iteration,
so the final `_curiter` strictly exceeds the count it started from. -/
theorem runInner_success_curiter (cap : ℕ) (fnewt eps : ℝ) (norms : ℕ → ℝ) :
    ∀ (fuel i cur : ℕ) (s : NewtonState),
      (runInner cap fnewt eps norms fuel i s cur).2.2 = false →
      cur + 1 ≤ (runInner cap fnewt eps norms fuel i s cur).2.1 := by
  intro fuel
  induction fuel with
  | zero => intro i cur s h; simp [runInner] at h
  | succ n ih =>
      intro i cur s h
      cases ho : (newtonIter cap fnewt eps i (norms i) s).2 <;>
        simp only [runInner, ho] at h ⊢
      · exact le_trans (by omega) (ih (i + 1) (cur + 1) _ h)
      · omega
      · cases h
      · cases h

/-- Helper: when a pass of the inner loop starting at `i = 0` with
`curiter = 0` succeeds after exactly one iteration, the contraction
estimate `_theta` is never written, so it keeps its value from the start
of the pass. -/
theorem runInner_one_iter_theta (cap : ℕ) (fnewt eps : ℝ) (norms : ℕ → ℝ)
    (fuel : ℕ) (s : NewtonState)
    (hok : (runInner cap fnewt eps norms fuel 0 s 0).2.2 = false)
    (hone : (runInner cap fnewt eps norms fuel 0 s 0).2.1 = 1) :
    (runInner cap fnewt eps norms fuel 0 s 0).1.theta = s.theta := by
  cases fuel with
  | zero => simp [runInner] at hok
  | succ n =>
      have h0 : ¬ (0 : ℕ) < 0 := by omega
      by_cases hc : s.fac_con * norms 0 ≤ fnewt
      · simp only [runInner, newtonIter, h0, if_false, hc, if_true,
          reduceIte] at hok hone ⊢
      · have hstep :
            (newtonIter cap fnewt eps 0 (norms 0) s).2 =
              NewtonOutcome.proceed := by
          simp [newtonIter, h0, hc]
        simp only [runInner, hstep, Nat.zero_add] at hok hone
        have h2 := runInner_success_curiter cap fnewt eps norms n 1 1
          (newtonIter cap fnewt eps 0 (norms 0) s).1 hok
        exact absurd hone (by omega)

/-- Helper: every pass of the outer Newton loop resets `_theta` to
`abs(thet)` before the inner loop runs, so a run of `newton` that returns
with `_curiter = 1` reports `_theta = abs(thet)`. -/
theorem newtonRun_one_iter_theta (cap : ℕ) (fnewt eps thet : ℝ)
    (norms : ℕ → ℕ → ℝ) :
    ∀ (p : ℕ) (s s' : NewtonState),
      newtonRun cap fnewt eps thet norms p s = Except.ok (s', 1) →
      s'.theta = |thet| := by
  intro p
  induction p with
  | zero => intro s s' h; simp [newtonRun] at h
  | succ n ih =>
      intro s s' h
      simp only [newtonRun] at h
      split_ifs at h with hb hθ
      · exact ih _ _ h
      · exact ih _ _ h
      · have hfail : (runInner cap fnewt eps (norms n) cap 0
            { s with fac_con := (max s.fac_con eps) ^ (0.8 : ℝ),
                     theta := |thet| } 0).2.2 = false :=
          Bool.eq_false_iff.mpr hb
        have h' := Except.ok.inj h
        rw [Prod.mk.injEq] at h'
        obtain ⟨h1, h2⟩ := h'
        rw [← h1]
        rw [runInner_one_iter_theta cap fnewt eps (norms n) cap _ hfail h2]

/-- Helper: under the reachability invariant of the Newton loop (a pass
ending after one iteration reports `_theta = abs(thet)`), the DAE flag
assignment agrees with the claimed rule. -/
theorem stepFlagsDAE_eq_claim (o h θ t : ℝ) (c : ℕ)
    (hinv : c = 1 → θ = |t|) :
    stepFlagsDAE o h θ t c = stepFlagsClaim o h θ t := by
  by_cases hc : c = 1
  · have hθ := hinv hc
    subst hθ
    unfold stepFlagsDAE stepFlagsClaim
    rcases lt_or_le t 0 with ht | ht
    · simp [ht]
    · have habs : |t| = t := abs_of_nonneg ht
      simp [habs, hc, not_lt.mpr ht]
  · unfold stepFlagsDAE stepFlagsClaim
    simp [hc]

/-- C6: at the exit of every completed Newton run, and hence after every
accepted step, both integrators set the reuse flags by the claimed rule:
reuse the Jacobian and the factorisation when the new step size equals the
step size of two accepted steps ago and `theta <= thet`, reuse only the
Jacobian when `theta <= thet`, otherwise recompute both; a configured
`thet < 0` forces both to be recomputed.  The DAE source's extra
`curiter == 1` disjunct never changes the outcome, because such a run
reports `theta = abs(thet)`. -/
theorem stepFlags_follow_claim (cap : ℕ) (fnewt eps thet : ℝ)
    (norms : ℕ → ℕ → ℝ) (p : ℕ) (s s' : NewtonState) (cur : ℕ)
    (o hnew : ℝ)
    (hrun : newtonRun cap fnewt eps thet norms p s = Except.ok (s', cur)) :
    stepFlags o hnew s'.theta thet = stepFlagsClaim o hnew s'.theta thet ∧
    stepFlagsDAE o hnew s'.theta thet cur =
      stepFlagsClaim o hnew s'.theta thet := by
  refine ⟨rfl, stepFlagsDAE_eq_claim _ _ _ _ _ ?_⟩
  intro hcur
  subst hcur
  exact newtonRun_one_iter_theta cap fnewt eps thet norms p s s' hrun

/-- C6 witness: a Newton run that converges in a single iteration of its
first pass, after which both integrators' flags agree with the claimed
rule. -/
theorem stepFlags_follow_claim_witness :
    stepFlags 2 3 (NewtonState.mk 0 1 1 1 1).theta 0 =
      stepFlagsClaim 2 3 (NewtonState.mk 0 1 1 1 1).theta 0 ∧
    stepFlagsDAE 2 3 (NewtonState.mk 0 1 1 1 1).theta 0 1 =
      stepFlagsClaim 2 3 (NewtonState.mk 0 1 1 1 1).theta 0 :=
  stepFlags_follow_claim 1 1 1 0 (fun _ _ => 0) 1 ⟨1, 1, 1, 1, 1⟩
    ⟨0, 1, 1, 1, 1⟩ 1 2 3 (by
      simp [newtonRun, runInner, newtonIter, Real.one_rpow])

/-- C1 counterexample: in iteration `i = 1` with previous norm `1` and new
norm `0.995`, the contraction estimate is `theta = 0.995 < 1`, yet the code
takes the `else: #Not convergence, abort` branch because its threshold is
`theta >= 0.99`, not `theta >= 1` as the claim states. -/
theorem newtonIter_abort_below_one :
    (newtonIter 7 1 1e-16 1 0.995 ⟨0, 0, 1, 1, 1⟩).2 =
      NewtonOutcome.nonconvAbort ∧
    (newtonIter 7 1 1e-16 1 0.995 ⟨0, 0, 1, 1, 1⟩).1.theta < 1 := by
  norm_num [newtonIter]

/-- C1 amended: in every iteration `i = j + 1 >= 1` the contraction
estimate is set to `thq = newnrm/oldnrm` when `i = 1` and to the geometric
mean `sqrt (thq * thqold)` when `i >= 2`, and the iteration takes the
non-convergence abort branch exactly when that estimate is `>= 0.99`
(the code's threshold, not `>= 1`). -/
theorem newtonIter_theta_abort (newt : ℕ) (fnewt eps newnrm : ℝ) (j : ℕ)
    (s : NewtonState) :
    ((newtonIter newt fnewt eps (j + 1) newnrm s).1.theta =
      if j = 0 then newnrm / s.oldnrm
      else Real.sqrt (newnrm / s.oldnrm * s.thqold)) ∧
    ((newtonIter newt fnewt eps (j + 1) newnrm s).2 =
        NewtonOutcome.nonconvAbort ↔
      0.99 ≤ (newtonIter newt fnewt eps (j + 1) newnrm s).1.theta) := by
  have hone : (j + 1 = 1) ↔ (j = 0) := by omega
  unfold newtonIter
  rw [if_pos (Nat.succ_pos j)]
  simp only [hone]
  split_ifs with h1 h2 h3 h4 h5 <;> simp_all

/-- Helper: the source's explicit `maxh` cap `if maxh < h then ok maxh
else ok h` is the `min` with `maxh`. -/
theorem ok_cap_eq_min (a b : ℝ) :
    (if b < a then (Except.ok b : Except Unit ℝ) else Except.ok a) =
      Except.ok (min a b) := by
  split_ifs with h
  · rw [min_eq_right h.le]
  · rw [min_eq_left (not_lt.mp h)]

/-- Helper: the source's `maxh` cap on a bare real is the `min` with
`maxh`. -/
theorem cap_eq_min (a b : ℝ) : (if b < a then b else a) = min a b := by
  split_ifs with h
  · rw [min_eq_right h.le]
  · rw [min_eq_left (not_lt.mp h)]

/-- C2 counterexample: on the first step with `err = 1 >= 1`, `h = 100`
and `maxh = 1`, the explicit variant returns `Except.ok 1` (the `maxh`
ceiling is applied after the `h/10` reduction), not `h/10 = 10` as the
claim states. -/
theorem adjust_stepsize_first_step_capped :
    adjust_stepsize
        { safe := 1, newt := 1, curiter := 1, fac1 := 1, fac2 := 1,
          quot1 := 1, quot2 := 1, h := 100, maxh := 1, eps := 1e-10,
          first := true } 1 = Except.ok 1 ∧
    (1 : ℝ) ≠ 100 / 10 := by
  refine ⟨?_, by norm_num⟩
  rw [adjust_stepsize]
  norm_num

/-- C2 amended: both `adjust_stepsize` variants compute the claimed
proposal with hysteresis hold, epsilon failure and `maxh` ceiling; in the
explicit variant the first-step reduction `h/10` is applied before the
`maxh` ceiling (so the result is `min (h/10) maxh`), while the DAE variant
caps at `maxh` first and then overrides with exactly `h/10` on the first
step with `err >= 1`. -/
theorem adjust_stepsize_spec (p : StepParams) (err : ℝ) :
    adjust_stepsize p err = adjust_stepsize_claim p err ∧
    adjust_stepsize_dae p err = adjust_stepsize_dae_claim p err := by
  constructor
  · simp only [adjust_stepsize, adjust_stepsize_claim, ok_cap_eq_min]
  · simp only [adjust_stepsize_dae, adjust_stepsize_dae_claim, cap_eq_min]
    ring_nf

/-- C5: the error estimate equals the claimed closed form: the scaled,
floored norm of the solved system, recomputed once with the bootstrapped
right-hand side exactly when the step was rejected or is the first step
and the first-pass value is at least 1. -/
theorem estimate_error_eq_claim (n : ℕ)
    (solve fboot : (Fin n → ℝ) → Fin n → ℝ) (E0 E1 E2 h : ℝ)
    (Z1 Z2 Z3 f0 scal : Fin n → ℝ) (rejected first : Bool) :
    estimate_error n solve fboot E0 E1 E2 h Z1 Z2 Z3 f0 scal rejected first =
      estimate_error_claim n solve fboot E0 E1 E2 h Z1 Z2 Z3 f0 scal
        rejected first := rfl

/-- C8: whenever the `usejac` option is enabled on `Radau5DAE`, the
integrate prelude returns normally (no exception) with `usejac` disabled
and the warning appended to the log. -/
theorem radau5dae_integrate_disables_usejac (usejac : Bool)
    (log : List String) (h : usejac = true) :
    radau5dae_integrate_prelude usejac log =
      Except.ok
        (false, log ++ ["Jacobians are not currently supported, disabling."]) := by
  subst h
  rfl

/-- C8 witness: with `usejac` enabled and an empty log, the prelude
disables the option and logs the warning. -/
theorem radau5dae_integrate_disables_usejac_witness :
    radau5dae_integrate_prelude true [] =
      Except.ok
        (false, ["Jacobians are not currently supported, disabling."]) :=
  radau5dae_integrate_disables_usejac true [] rfl

/-- C9: the `maxsteps` setter raises `ODE_Exception` for every non-integer
value and for every integer below 1, leaving the stored value unchanged in
both failure cases, while for every integer `n >= 1` it succeeds (no
exception) and a subsequent read returns `n`. -/
theorem set_max_steps_spec (cur n : ℤ) :
    set_max_steps cur PyVal.nonInt =
      (cur, some "The maximum number of steps must be an integer.") ∧
    (set_max_steps cur (PyVal.int n)).1 = (if n < 1 then cur else n) ∧
    ((set_max_steps cur (PyVal.int n)).2 = none ↔ 1 ≤ n) := by
  refine ⟨rfl, ?_, ?_⟩ <;> simp only [set_max_steps] <;> split_ifs with hn
  · rfl
  · rfl
  · simp
    omega
  · simp
    omega

/-- C10: both interpolation front ends return the state for `k = 0` and
the derivative for `k = 1`, but for every other `k` the C-extension class
`Radau5DAE.interpolate` falls through and returns `None`, while the
pure-Python `_Radau5DAE.interpolate` raises `Implicit_ODE_Exception`. -/
theorem interpolate_k_dispatch {α : Type} (y yd : α) (k : ℤ)
    (h0 : k ≠ 0) (h1 : k ≠ 1) :
    radau5dae_interpolate y yd 0 = some y ∧
    radau5dae_interpolate y yd 1 = some yd ∧
    radau5dae_interpolate y yd k = none ∧
    radau5dae_interpolate_py y yd 0 = Except.ok y ∧
    radau5dae_interpolate_py y yd 1 = Except.ok yd ∧
    radau5dae_interpolate_py y yd k =
      Except.error "Unknown value of k. Should be either 0 or 1" := by
  refine ⟨rfl, rfl, ?_, rfl, rfl, ?_⟩ <;>
    simp [radau5dae_interpolate, radau5dae_interpolate_py, h0, h1]

/-- C10 witness: at `k = 2` the C-extension variant returns `None` and the
pure-Python variant raises. -/
theorem interpolate_k_dispatch_witness :
    radau5dae_interpolate (5 : ℤ) 7 0 = some 5 ∧
    radau5dae_interpolate (5 : ℤ) 7 1 = some 7 ∧
    radau5dae_interpolate (5 : ℤ) 7 2 = none ∧
    radau5dae_interpolate_py (5 : ℤ) 7 0 = Except.ok 5 ∧
    radau5dae_interpolate_py (5 : ℤ) 7 1 = Except.ok 7 ∧
    radau5dae_interpolate_py (5 : ℤ) 7 2 =
      Except.error "Unknown value of k. Should be either 0 or 1" :=
  interpolate_k_dispatch (5 : ℤ) 7 2 (by decide) (by decide)

end Assimulo
